import Mathlib

/-!
Formal model of the profile-picture upload pipeline implemented in
`app/utils/minio_client.py`.

Strings are modelled as `List Char`; Python string operations
(`rsplit(".", 1)[-1]`, `split(".")[-1]`, `lower`, f-string concatenation)
become list operations.  The PIL image is a structure carrying its mode
string, dimensions, optional EXIF dictionary and a pixel function; the
floating-point geometry of `Image.thumbnail` is carried out in exact
rational arithmetic (`ℚ`), mirroring Pillow's `round_aspect` computation.
The bicubic resampling kernel itself is opaque and passed as a parameter
(`Resampler`); no verified property depends on resampled pixel values.
Effects (the MinIO client call, the temp-file writes, possible exceptions)
are modelled by explicit outcome flags and by returning the list of
storage operations performed together with the local paths created.
-/

abbrev Str := List Char

/-- Python `s.rsplit(".", 1)[-1]` and `s.split(".")[-1]`: the suffix of `s`
after the last `'.'` (the whole string when no `'.'` occurs). -/
def lastDotSuffix (s : Str) : Str :=
  (s.reverse.takeWhile (fun c => c ≠ '.')).reverse

/-- Python `s.lower()` (ASCII case folding, which is all the allow-list
comparison can observe). -/
def lowerStr (s : Str) : Str := s.map Char.toLower

/-- `ALLOWED_EXTENSIONS = {"png", "jpg", "jpeg"}` from the source module. -/
def ALLOWED_EXTENSIONS : List Str := [("png".data), ("jpg".data), ("jpeg".data)]

/-- `allowed_file` from `app/utils/minio_client.py`: reject a falsy (empty)
filename, take the lowercased suffix after the last `'.'` (empty when the
filename has no `'.'`), and test membership in the allow-list. -/
def allowed_file (filename : Str) : Bool :=
  if filename = [] then false
  else
    let extension := if '.' ∈ filename then lowerStr (lastDotSuffix filename) else []
    decide (extension ∈ ALLOWED_EXTENSIONS)

/-- A decoded PIL image: mode string (e.g. `"RGBA"`), size, the optional
EXIF dictionary returned by `_getexif()` (`none` both when the attribute
is missing and when the call returns a falsy value is modelled by `none`
or `some []`), and a pixel function giving the list of band values at
each coordinate. -/
structure PILImage where
  mode : Str
  width : Nat
  height : Nat
  exif : Option (List (Nat × Nat))
  pixels : Nat → Nat → List Nat

/-- `img.rotate(angle, expand=True)` for the angles the pipeline uses
(90/270 swap the canvas dimensions under expand semantics, 180 keeps
them); any other combination returns the image unchanged. -/
def rotate (img : PILImage) (angle : Nat) (expand : Bool) : PILImage :=
  if angle = 180 then
    { img with pixels := fun x y => img.pixels (img.width - 1 - x) (img.height - 1 - y) }
  else if (angle = 90 ∨ angle = 270) ∧ expand = true then
    { mode := img.mode, width := img.height, height := img.width, exif := img.exif,
      pixels := fun x y =>
        if angle = 90 then img.pixels (img.width - 1 - y) x
        else img.pixels y (img.height - 1 - x) }
  else img

/-- Observable PIL calls made by `resize_image`. -/
inductive PILOp where
  | rotate (angle : Nat) (expand : Bool)
  | thumbnail (w h : Nat)
  | paste
  | save (path : Str) (quality : Nat) (optimize : Bool)
deriving DecidableEq

/-- The EXIF-orientation block of `resize_image`: when `_getexif()` is
truthy and tag 274 maps to 3/6/8, rotate by 180/270/90 with
`expand=True`; otherwise leave the image untouched. -/
def orientStep (img : PILImage) : PILImage × List PILOp :=
  match img.exif with
  | none => (img, [])
  | some d =>
    if d = [] then (img, [])
    else
      match d.lookup 274 with
      | some v =>
        if v = 3 then (rotate img 180 true, [PILOp.rotate 180 true])
        else if v = 6 then (rotate img 270 true, [PILOp.rotate 270 true])
        else if v = 8 then (rotate img 90 true, [PILOp.rotate 90 true])
        else (img, [])
      | none => (img, [])

/-- The value of EXIF tag 274 as the source observes it: `none` when
`_getexif()` is absent/falsy or the tag is missing. -/
def exifOrientation (img : PILImage) : Option Nat :=
  match img.exif with
  | none => none
  | some d => if d = [] then none else d.lookup 274

/-- Pillow's `round_aspect(number, key)` inside `Image.thumbnail`:
`max(min(floor(number), ceil(number), key=key), 1)` (Python `min` keeps
the first argument on ties, hence the strict comparison). -/
def round_aspect (number : ℚ) (key : ℤ → ℚ) : ℤ :=
  max (if key number.ceil < key number.floor then number.ceil else number.floor) 1

/-- The size computation of Pillow's `Image.thumbnail((x, y))` on a
`w × h` image: return unchanged when the box already contains the image,
otherwise scale the dimension that would overflow, rounding with
`round_aspect` while keeping the other at the box bound. -/
def thumbnailSize (w h x y : Nat) : Nat × Nat :=
  if x ≥ w ∧ y ≥ h then (w, h)
  else if (x : ℚ) / (y : ℚ) ≥ (w : ℚ) / (h : ℚ) then
    ((round_aspect ((y : ℚ) * ((w : ℚ) / (h : ℚ)))
      (fun n => |(w : ℚ) / (h : ℚ) - (n : ℚ) / (y : ℚ)|)).toNat, y)
  else
    (x, (round_aspect ((x : ℚ) / ((w : ℚ) / (h : ℚ)))
      (fun n => if n = 0 then 0 else |(w : ℚ) / (h : ℚ) - (x : ℚ) / (n : ℚ)|)).toNat)

/-- The resampling kernel of `Image.resize` (new size, old size, old
pixels ↦ new pixels); its numerics are opaque to this development. -/
abbrev Resampler := Nat × Nat → Nat × Nat → (Nat → Nat → List Nat) → (Nat → Nat → List Nat)

/-- `img.thumbnail(size)`: mode and EXIF are unchanged, the dimensions
become `thumbnailSize`, and the pixels are resampled exactly when the
size changed. -/
def thumbStep (resample : Resampler) (sw sh : Nat) (img : PILImage) : PILImage :=
  { mode := img.mode, exif := img.exif,
    width := (thumbnailSize img.width img.height sw sh).1,
    height := (thumbnailSize img.width img.height sw sh).2,
    pixels :=
      if thumbnailSize img.width img.height sw sh = (img.width, img.height) then img.pixels
      else resample (thumbnailSize img.width img.height sw sh) (img.width, img.height) img.pixels }

/-- Pillow's `MULDIV255(a, b, tmp)`: `(t >> 8 + t) >> 8` with
`t = a*b + 128`, an exact `/255` with rounding. -/
def muldiv255 (a b : Nat) : Nat := ((a * b + 128) / 256 + (a * b + 128)) / 256

/-- Pillow's `BLEND(mask, in1, in2)` used by `Image.paste` with an 8-bit
mask: blend background value `bgv` and source value `sv` by mask `m`. -/
def blendChan (m bgv sv : Nat) : Nat := muldiv255 bgv (255 - m) + muldiv255 sv m

/-- The fill ink of `Image.new(mode, size, (r, g, b))`: an RGB triple is
converted to luminance for single-band `"L"` images. -/
def ink (mode : Str) (r g b : Nat) : List Nat :=
  if mode = ("L".data) then [(r * 299 + g * 587 + b * 114) / 1000] else [r, g, b]

/-- `Image.new(mode, (w, h), (r, g, b))`: a constant image. -/
def imageNew (mode : Str) (w h : Nat) (r g b : Nat) : PILImage :=
  ⟨mode, w, h, none, fun _ _ => ink mode r g b⟩

/-- `img.split()[-1]`: the last band (the alpha channel for RGBA/LA). -/
def alphaBand (img : PILImage) (x y : Nat) : Nat := (img.pixels x y).getLastD 0

/-- `bg.paste(src, mask)` (PIL treats an image second argument as the
mask): every band of the background is blended with the corresponding
band of the source under the mask; surplus source bands are dropped. -/
def paste (bg src : PILImage) (mask : Nat → Nat → Nat) : PILImage :=
  { mode := bg.mode, width := bg.width, height := bg.height, exif := bg.exif,
    pixels := fun x y => List.zipWith (blendChan (mask x y)) (bg.pixels x y) (src.pixels x y) }

/-- The transparency block of `resize_image`: for mode RGBA or LA, build
a white background of the same size in the alpha-less mode
(`img.mode[:-1]`) and paste the image onto it with its alpha band as the
mask. -/
def flattenStep (img : PILImage) : PILImage × List PILOp :=
  if img.mode = ("RGBA".data) ∨ img.mode = ("LA".data) then
    (paste (imageNew img.mode.dropLast img.width img.height 255 255 255) img (alphaBand img),
     [PILOp.paste])
  else (img, [])

/-- `resize_image(image_path, size, user_id)` on the already-decoded
image found at `image_path`: orientation fix-up, `thumbnail`,
transparency flattening, then `save` to `/tmp/{user_id}.{extension}`
with `quality=85, optimize=True`.  Returns the final image, the output
path, and the PIL calls performed. -/
def resize_image (resample : Resampler) (img : PILImage) (sizeW sizeH : Nat)
    (user image_path : Str) : PILImage × Str × List PILOp :=
  let o := orientStep img
  let img2 := thumbStep resample sizeW sizeH o.1
  let f := flattenStep img2
  let extension := lowerStr (lastDotSuffix image_path)
  let output_path := ("/tmp/".data) ++ user ++ ['.'] ++ extension
  (f.1, output_path,
   o.2 ++ [PILOp.thumbnail sizeW sizeH] ++ f.2 ++ [PILOp.save output_path 85 true])

/-- Calls issued to the MinIO client. -/
inductive StorageOp where
  | fput (bucket key path : Str)
  | bucketExists (bucket : Str)
  | makeBucket (bucket : Str)
deriving DecidableEq

/-- The configuration surface the module reads: `settings.MINIO_ENDPOINT`
and `settings.MINIO_BUCKET_NAME`. -/
structure Config where
  endpoint : Str
  bucket : Str

/-- The only uncaught exception kind relevant to module initialization. -/
inductive PyErr where
  | attributeError
deriving DecidableEq

/-- The module-level initialization of `app/utils/minio_client.py`.
First `try` block: construct the client, on any exception set
`minio_client = None` (`ctorOk` says whether construction succeeded).
Second (module-level) block: call `minio_client.bucket_exists` and
possibly `make_bucket`; its handler catches only `S3Error`, so when the
handle is `None` the attribute dereference raises an uncaught
`AttributeError` and module import fails.  `bucketPresent` is the answer
of `bucket_exists`; `checkRaisesS3` says whether the check raised
`S3Error` (which is caught and logged). -/
def moduleInit (cfg : Config) (ctorOk bucketPresent checkRaisesS3 : Bool) :
    Except PyErr (Option Unit × List StorageOp) :=
  let minio_client : Option Unit := if ctorOk then some () else none
  match minio_client with
  | none => Except.error PyErr.attributeError
  | some _ =>
    if checkRaisesS3 then Except.ok (some (), [StorageOp.bucketExists cfg.bucket])
    else if bucketPresent then Except.ok (some (), [StorageOp.bucketExists cfg.bucket])
    else Except.ok (some (),
      [StorageOp.bucketExists cfg.bucket, StorageOp.makeBucket cfg.bucket])

/-- Observable outcome of one `upload` call: the returned value, the
storage calls made, the transient local paths created (raw copy and
normalized copy), and the derived object key, when reached. -/
structure UploadOut where
  result : Option Str
  ops : List StorageOp
  rawPath : Option Str
  resizedPath : Option Str
  objectKey : Option Str
deriving DecidableEq

/-- `upload(file, user_id)` from the source.  `clientUp` is
`minio_client is not None`; `writeOk` models the temp-file write (and
`await file.read()`) not raising; `resizeOk` models `resize_image` not
raising; `fputOk` models `fput_object` not raising `S3Error`.  Every
raised exception is caught and turned into `None`, exactly as the
source's `except` clauses do. -/
def upload (cfg : Config) (clientUp : Bool) (resample : Resampler) (img : PILImage)
    (filename user : Str) (writeOk resizeOk fputOk : Bool) : UploadOut :=
  if clientUp = false then ⟨none, [], none, none, none⟩
  else if allowed_file filename = false then ⟨none, [], none, none, none⟩
  else
    let file_path := ("/tmp/".data) ++ filename
    if writeOk = false then ⟨none, [], none, none, none⟩
    else if resizeOk = false then ⟨none, [], some file_path, none, none⟩
    else
      let resized_image_path := (resize_image resample img 200 200 user file_path).2.1
      let extension := lowerStr (lastDotSuffix filename)
      let image_name := user ++ ['.'] ++ extension
      if fputOk = false then
        ⟨none, [StorageOp.fput cfg.bucket image_name resized_image_path],
         some file_path, some resized_image_path, some image_name⟩
      else
        ⟨some (("http://".data) ++ cfg.endpoint ++ ['/'] ++ cfg.bucket ++ ['/'] ++ image_name),
         [StorageOp.fput cfg.bucket image_name resized_image_path],
         some file_path, some resized_image_path, some image_name⟩

/-- Bucket contents as a map from object key to the uploaded source
path; `fput_object` overwrites the key unconditionally. -/
def applyOp (st : Str → Option Str) (op : StorageOp) : Str → Option Str :=
  match op with
  | StorageOp.fput _ key path => fun q => if q = key then some path else st q
  | _ => st

/-- Replay a list of storage calls against a bucket state. -/
def applyOps (st : Str → Option Str) (ops : List StorageOp) : Str → Option Str :=
  ops.foldl applyOp st

/-- The empty bucket. -/
def emptyStore : Str → Option Str := fun _ => none

/-- C1: `allowed_file(F)` returns true iff the lowercase suffix of `F`
after the last `'.'` is one of png/jpg/jpeg; it returns false for an
empty filename and for a filename with no `'.'`.  Totality holds by
construction: `allowed_file` is a total Lean function into `Bool`. -/
theorem claim_c1_allowed_file :
    (∀ f : Str, allowed_file f = true ↔
      ('.' ∈ f ∧ lowerStr (lastDotSuffix f) ∈ ALLOWED_EXTENSIONS)) ∧
    allowed_file [] = false ∧
    (∀ f : Str, '.' ∉ f → allowed_file f = false) := by
  refine ⟨?_, rfl, ?_⟩
  · intro f
    by_cases hf : f = []
    · subst hf
      simp [allowed_file]
    · by_cases hd : '.' ∈ f
      · simp [allowed_file, hf, hd]
      · simp [allowed_file, hf, hd, ALLOWED_EXTENSIONS]
  · intro f h
    by_cases hf : f = []
    · subst hf; rfl
    · simp [allowed_file, hf, h, ALLOWED_EXTENSIONS]

/-- Witness for C1 at the concrete dot-free filename `"photojpg"`. -/
theorem claim_c1_allowed_file_witness : allowed_file ("photojpg".data) = false :=
  claim_c1_allowed_file.2.2 ("photojpg".data) (by decide)

/-- A concrete configuration used by closed instances. -/
def sampleConfig : Config := ⟨("localhost:9000".data), ("bucket".data)⟩

/-- A trivial resampling kernel used by closed instances. -/
def sampleResampler : Resampler := fun _ _ px => px

/-- A concrete 1×1 RGB image with no EXIF data. -/
def sampleImage : PILImage := ⟨("RGB".data), 1, 1, none, fun _ _ => [0, 0, 0]⟩

/-- C2: an upload of `"photo.jpg"` that succeeds end to end (client
initialized, temp write, resize and `fput_object` all succeed) returns
exactly the URL `http://{endpoint}/{bucket}/{U}.jpg`. -/
theorem claim_c2_upload_url (cfg : Config) (r : Resampler) (img : PILImage) (user : Str) :
    (upload cfg true r img ("photo.jpg".data) user true true true).result =
      some (("http://".data) ++ cfg.endpoint ++ ['/'] ++ cfg.bucket ++ ['/'] ++
        user ++ (".jpg".data)) := by
  have h1 : allowed_file ("photo.jpg".data) = true := by decide
  have h2 : lowerStr (lastDotSuffix ("photo.jpg".data)) = ("jpg".data) := by decide
  simp [upload, h1, h2, List.append_assoc]

/-- C3: whenever the filename fails the extension allow-list, `upload`
returns the absence value and performs no storage call at all — in
particular `fput_object` is never invoked — regardless of the byte
stream, the effect outcomes, and the client state. -/
theorem claim_c3_rejected_upload (cfg : Config) (clientUp : Bool) (r : Resampler)
    (img : PILImage) (filename user : Str) (writeOk resizeOk fputOk : Bool)
    (h : allowed_file filename = false) :
    (upload cfg clientUp r img filename user writeOk resizeOk fputOk).result = none ∧
    (upload cfg clientUp r img filename user writeOk resizeOk fputOk).ops = [] := by
  cases clientUp
  · exact ⟨rfl, rfl⟩
  · simp [upload, h]

/-- Witness for C3 at the concrete rejected filename `"doc.txt"`. -/
theorem claim_c3_rejected_upload_witness :
    (upload sampleConfig true sampleResampler sampleImage ("doc.txt".data) ("42".data)
      true true true).result = none ∧
    (upload sampleConfig true sampleResampler sampleImage ("doc.txt".data) ("42".data)
      true true true).ops = [] :=
  claim_c3_rejected_upload _ _ _ _ _ _ _ _ _ (by decide)

/-- C4: contrary to the claim (and to the source's own comment saying the
bucket will be handled "when a function is actually called"), the
module-level initialization itself calls `bucket_exists`, and
`make_bucket` when the bucket is absent: the check is eager, not lazy. -/
theorem claim_c4_module_level_bucket_check :
    moduleInit sampleConfig true true false =
      Except.ok (some (), [StorageOp.bucketExists ("bucket".data)]) ∧
    moduleInit sampleConfig true false false =
      Except.ok (some (), [StorageOp.bucketExists ("bucket".data),
        StorageOp.makeBucket ("bucket".data)]) :=
  ⟨rfl, rfl⟩


/-- A `rotate` call appears in the PIL call trace of `resize_image` iff
the orientation block issued it (the other trace entries are
`thumbnail`, `paste` and `save`). -/
theorem rotate_mem_resize_ops (r : Resampler) (img : PILImage) (sw sh : Nat)
    (user path : Str) (a : Nat) (e : Bool) :
    PILOp.rotate a e ∈ (resize_image r img sw sh user path).2.2 ↔
    PILOp.rotate a e ∈ (orientStep img).2 := by
  by_cases hf : (thumbStep r sw sh (orientStep img).1).mode = ("RGBA".data) ∨
      (thumbStep r sw sh (orientStep img).1).mode = ("LA".data)
  · simp [resize_image, flattenStep, hf]
  · simp [resize_image, flattenStep, hf]

/-- C5: in `resize_image`, EXIF orientation value 3 yields a
`rotate(180, expand=True)` call, 6 yields `rotate(270, expand=True)`,
8 yields `rotate(90, expand=True)`, and any other value (including 1)
or an absent/falsy EXIF dictionary yields no rotate call at all. -/
theorem claim_c5_exif_rotation (r : Resampler) (img : PILImage) (sw sh : Nat) (user path : Str) :
    (exifOrientation img = some 3 →
      PILOp.rotate 180 true ∈ (resize_image r img sw sh user path).2.2) ∧
    (exifOrientation img = some 6 →
      PILOp.rotate 270 true ∈ (resize_image r img sw sh user path).2.2) ∧
    (exifOrientation img = some 8 →
      PILOp.rotate 90 true ∈ (resize_image r img sw sh user path).2.2) ∧
    (∀ v, exifOrientation img = some v → v ≠ 3 → v ≠ 6 → v ≠ 8 →
      ∀ a e, PILOp.rotate a e ∉ (resize_image r img sw sh user path).2.2) ∧
    (exifOrientation img = none →
      ∀ a e, PILOp.rotate a e ∉ (resize_image r img sw sh user path).2.2) := by
  rcases hx : img.exif with _ | d
  · refine ⟨?_, ?_, ?_, ?_, ?_⟩ <;>
      simp [exifOrientation, hx, rotate_mem_resize_ops, orientStep]
  · by_cases hd : d = []
    · refine ⟨?_, ?_, ?_, ?_, ?_⟩ <;>
        simp [exifOrientation, hx, hd, rotate_mem_resize_ops, orientStep]
    · rcases hl : d.lookup 274 with _ | v
      · refine ⟨?_, ?_, ?_, ?_, ?_⟩ <;>
          simp [exifOrientation, hx, hd, hl, rotate_mem_resize_ops, orientStep]
      · have hev : exifOrientation img = some v := by simp [exifOrientation, hx, hd, hl]
        refine ⟨?_, ?_, ?_, ?_, ?_⟩
        · intro h
          have hv : v = 3 := by rw [hev] at h; exact Option.some_inj.1 h
          rw [rotate_mem_resize_ops]
          simp [orientStep, hx, hd, hl, hv]
        · intro h
          have hv : v = 6 := by rw [hev] at h; exact Option.some_inj.1 h
          rw [rotate_mem_resize_ops]
          simp [orientStep, hx, hd, hl, hv]
        · intro h
          have hv : v = 8 := by rw [hev] at h; exact Option.some_inj.1 h
          rw [rotate_mem_resize_ops]
          simp [orientStep, hx, hd, hl, hv]
        · intro v' h h3 h6 h8 a e
          have hv : v = v' := Option.some_inj.1 (hev.symm.trans h)
          subst hv
          rw [rotate_mem_resize_ops]
          simp [orientStep, hx, hd, hl, h3, h6, h8]
        · intro h
          rw [hev] at h
          exact absurd h (by simp)

/-- Witness for C5: a concrete image whose EXIF tag 274 is 6 is rotated
by 270 degrees with expand. -/
theorem claim_c5_exif_rotation_witness :
    PILOp.rotate 270 true ∈ (resize_image sampleResampler
      ⟨("RGB".data), 400, 300, some [(274, 6)], fun _ _ => [0, 0, 0]⟩
      200 200 ("42".data) ("/tmp/a.jpg".data)).2.2 :=
  (claim_c5_exif_rotation sampleResampler
    ⟨("RGB".data), 400, 300, some [(274, 6)], fun _ _ => [0, 0, 0]⟩
    200 200 ("42".data) ("/tmp/a.jpg".data)).2.1 (by decide)

/-- Batteries' executable `Rat.floor` agrees with the order-theoretic floor. -/
theorem ratFloor_eq (q : ℚ) : q.floor = ⌊q⌋ :=
  (Rat.floor_def' q).trans Rat.floor_def.symm

/-- Batteries' executable `Rat.ceil` agrees with the order-theoretic ceiling. -/
theorem ratCeil_eq (q : ℚ) : q.ceil = ⌈q⌉ := by
  by_cases h : q.den = 1
  · have hq : ((q.num : ℤ) : ℚ) = q := (Rat.den_eq_one_iff q).1 h
    have hc : ⌈q⌉ = q.num := by
      conv_lhs => rw [← hq]
      rw [Int.ceil_intCast]
    rw [Rat.ceil, hc]
    simp [h]
  · have hne : q ≠ ((⌊q⌋ : ℤ) : ℚ) := by
      intro he
      have hd : q.den = 1 := by rw [he]; exact Rat.den_intCast _
      exact h hd
    have hflt : ((⌊q⌋ : ℤ) : ℚ) < q := lt_of_le_of_ne (Int.floor_le q) (fun he => hne he.symm)
    have hceil : ⌈q⌉ = ⌊q⌋ + 1 := by
      apply le_antisymm
      · exact Int.ceil_le.2 (by exact_mod_cast le_of_lt (Int.lt_floor_add_one q))
      · exact Int.add_one_le_iff.2 (Int.lt_ceil.2 hflt)
    rw [Rat.ceil]
    simp only [h, if_false]
    rw [hceil, Rat.floor_def]

/-- `round_aspect e key` (for positive `e`) is at least 1, lands within
distance 1 of `e`, and respects any integer upper bound of `e` that is
at least 1 — for every tie-breaking key. -/
theorem round_aspect_spec (e : ℚ) (key : ℤ → ℚ) (he : 0 < e) :
    1 ≤ round_aspect e key ∧
    |((round_aspect e key : ℤ) : ℚ) - e| < 1 ∧
    (∀ B : ℤ, e ≤ (B : ℚ) → 1 ≤ B → round_aspect e key ≤ B) := by
  have hra : round_aspect e key = max (if key ⌈e⌉ < key ⌊e⌋ then ⌈e⌉ else ⌊e⌋) 1 := by
    rw [round_aspect, ratCeil_eq, ratFloor_eq]
  set p : ℤ := if key ⌈e⌉ < key ⌊e⌋ then ⌈e⌉ else ⌊e⌋ with hp
  have hpcases : p = ⌈e⌉ ∨ p = ⌊e⌋ := by
    rw [hp]; split
    · exact Or.inl rfl
    · exact Or.inr rfl
  refine ⟨by rw [hra]; exact le_max_right _ _, ?_, ?_⟩
  · by_cases hp1 : 1 ≤ p
    · have hmax : max p 1 = p := max_eq_left hp1
      rw [hra, hmax]
      rcases hpcases with hpc | hpc
      · rw [hpc]
        rw [abs_sub_lt_iff]
        constructor
        · have := Int.ceil_lt_add_one e
          linarith
        · have := Int.le_ceil e
          linarith
      · rw [hpc]
        rw [abs_sub_lt_iff]
        constructor
        · have := Int.floor_le e
          linarith
        · have := Int.sub_one_lt_floor e
          linarith
    · have hp0 : p ≤ 0 := by omega
      have hmax : max p 1 = 1 := max_eq_right (by omega)
      rw [hra, hmax]
      have hpfloor : p = ⌊e⌋ := by
        rcases hpcases with hpc | hpc
        · exfalso
          have : (1 : ℤ) ≤ ⌈e⌉ := Int.ceil_pos.2 he
          omega
        · exact hpc
      have hfl0 : ⌊e⌋ ≤ 0 := by rw [← hpfloor]; exact hp0
      have he2 : e < 2 := by
        have h1 := Int.lt_floor_add_one e
        have : ((⌊e⌋ : ℤ) : ℚ) ≤ 0 := by exact_mod_cast hfl0
        push_cast at h1
        linarith
      rw [abs_sub_lt_iff]
      constructor
      · push_cast
        linarith
      · push_cast
        linarith
  · intro B hB h1B
    rw [hra]
    apply max_le _ h1B
    rcases hpcases with hpc | hpc
    · rw [hpc]
      exact Int.ceil_le.2 hB
    · rw [hpc]
      calc ⌊e⌋ ≤ ⌊(B : ℚ)⌋ := Int.floor_le_floor hB
        _ = B := Int.floor_intCast B

/-- Geometry of `thumbnailSize` for the fixed 200×200 box: the result
fits the box, never exceeds the source, pins one dimension to the box
unless the source already fits strictly, and preserves the aspect ratio
up to sub-pixel rounding (cross-multiplied deviation below `max w h`). -/
theorem thumbnail_size_spec (w h : Nat) (hw : 0 < w) (hh : 0 < h) :
    (thumbnailSize w h 200 200).1 ≤ 200 ∧
    (thumbnailSize w h 200 200).2 ≤ 200 ∧
    (thumbnailSize w h 200 200).1 ≤ w ∧
    (thumbnailSize w h 200 200).2 ≤ h ∧
    (¬(w < 200 ∧ h < 200) →
      (thumbnailSize w h 200 200).1 = 200 ∨ (thumbnailSize w h 200 200).2 = 200) ∧
    |((thumbnailSize w h 200 200).1 : ℤ) * (h : ℤ) -
      (w : ℤ) * ((thumbnailSize w h 200 200).2 : ℤ)| < ((max w h : Nat) : ℤ) := by
  have hhq : (0 : ℚ) < (h : ℚ) := by exact_mod_cast hh
  have hwq : (0 : ℚ) < (w : ℚ) := by exact_mod_cast hw
  by_cases hskip : 200 ≥ w ∧ 200 ≥ h
  · simp only [thumbnailSize, if_pos hskip]
    refine ⟨hskip.1, hskip.2, le_refl w, le_refl h, ?_, ?_⟩
    · intro hns
      omega
    · simp only [sub_self, abs_zero]
      have : 0 < max w h := by omega
      exact_mod_cast this
  · have hor : 200 < w ∨ 200 < h := by omega
    by_cases hbr : ((200 : Nat) : ℚ) / ((200 : Nat) : ℚ) ≥ (w : ℚ) / (h : ℚ)
    · -- width-adjusting branch: w ≤ h, the height is pinned at 200
      have hone : ((200 : Nat) : ℚ) / ((200 : Nat) : ℚ) = 1 := by norm_num
      have haspect1 : (w : ℚ) / (h : ℚ) ≤ 1 := by rw [hone] at hbr; exact hbr
      have hwh : w ≤ h := by
        have := (div_le_one hhq).1 haspect1
        exact_mod_cast this
      have hh200 : 200 < h := by omega
      have he : 0 < ((200 : Nat) : ℚ) * ((w : ℚ) / (h : ℚ)) := by positivity
      obtain ⟨h1R, hdist, hbound⟩ :=
        round_aspect_spec (((200 : Nat) : ℚ) * ((w : ℚ) / (h : ℚ)))
          (fun n => |(w : ℚ) / (h : ℚ) - (n : ℚ) / ((200 : Nat) : ℚ)|) he
      set R : ℤ := round_aspect (((200 : Nat) : ℚ) * ((w : ℚ) / (h : ℚ)))
          (fun n => |(w : ℚ) / (h : ℚ) - (n : ℚ) / ((200 : Nat) : ℚ)|) with hR
      have hR200 : R ≤ 200 := by
        apply hbound 200 _ (by norm_num)
        push_cast
        nlinarith [haspect1]
      have hRw : R ≤ (w : ℤ) := by
        apply hbound w _ (by exact_mod_cast hw)
        have h200h : ((200 : Nat) : ℚ) ≤ (h : ℚ) := by exact_mod_cast le_of_lt hh200
        have hdiv : (0 : ℚ) ≤ (w : ℚ) / (h : ℚ) := by positivity
        calc ((200 : Nat) : ℚ) * ((w : ℚ) / (h : ℚ))
            ≤ (h : ℚ) * ((w : ℚ) / (h : ℚ)) := mul_le_mul_of_nonneg_right h200h hdiv
          _ = (w : ℚ) := by field_simp
      have htn : ((R.toNat : Nat) : ℤ) = R := Int.toNat_of_nonneg (by omega)
      have hres : thumbnailSize w h 200 200 = (R.toNat, 200) := by
        simp only [thumbnailSize, if_neg hskip, if_pos hbr, hR]
      rw [hres]
      refine ⟨by omega, le_refl 200, by omega, le_of_lt hh200, fun _ => Or.inr rfl, ?_⟩
      · have hmax : max w h = h := Nat.max_eq_right hwh
        rw [hmax]
        have hEh : ((200 : Nat) : ℚ) * ((w : ℚ) / (h : ℚ)) * (h : ℚ) = 200 * (w : ℚ) := by
          field_simp
        have hkey : |((R : ℤ) : ℚ) * (h : ℚ) - (w : ℚ) * 200| < (h : ℚ) := by
          have hmul : (((R : ℤ) : ℚ) - ((200 : Nat) : ℚ) * ((w : ℚ) / (h : ℚ))) * (h : ℚ) =
              ((R : ℤ) : ℚ) * (h : ℚ) - (w : ℚ) * 200 := by
            rw [sub_mul, hEh]; ring
          calc |((R : ℤ) : ℚ) * (h : ℚ) - (w : ℚ) * 200|
              = |(((R : ℤ) : ℚ) - ((200 : Nat) : ℚ) * ((w : ℚ) / (h : ℚ)))| * |(h : ℚ)| := by
                rw [← abs_mul, hmul]
            _ = |(((R : ℤ) : ℚ) - ((200 : Nat) : ℚ) * ((w : ℚ) / (h : ℚ)))| * (h : ℚ) := by
                rw [abs_of_pos hhq]
            _ < 1 * (h : ℚ) := by
                exact mul_lt_mul_of_pos_right hdist hhq
            _ = (h : ℚ) := one_mul _
        have : |(R.toNat : ℤ) * (h : ℤ) - (w : ℤ) * (200 : ℤ)| < (h : ℤ) := by
          rw [htn]
          exact_mod_cast hkey
        exact_mod_cast this
    · -- height-adjusting branch: h < w, the width is pinned at 200
      have hone : ((200 : Nat) : ℚ) / ((200 : Nat) : ℚ) = 1 := by norm_num
      have haspect1 : 1 < (w : ℚ) / (h : ℚ) := by
        rw [hone] at hbr
        exact lt_of_not_ge hbr
      have hhw : h < w := by
        have := (one_lt_div hhq).1 haspect1
        exact_mod_cast this
      have hw200 : 200 < w := by omega
      have he : 0 < ((200 : Nat) : ℚ) / ((w : ℚ) / (h : ℚ)) := by positivity
      obtain ⟨h1R, hdist, hbound⟩ :=
        round_aspect_spec (((200 : Nat) : ℚ) / ((w : ℚ) / (h : ℚ)))
          (fun n => if n = 0 then 0 else |(w : ℚ) / (h : ℚ) - ((200 : Nat) : ℚ) / (n : ℚ)|) he
      set R : ℤ := round_aspect (((200 : Nat) : ℚ) / ((w : ℚ) / (h : ℚ)))
          (fun n => if n = 0 then 0 else |(w : ℚ) / (h : ℚ) - ((200 : Nat) : ℚ) / (n : ℚ)|)
        with hR
      have hEdiv : ((200 : Nat) : ℚ) / ((w : ℚ) / (h : ℚ)) = 200 * (h : ℚ) / (w : ℚ) := by
        field_simp
      have hhwq : (h : ℚ) ≤ (w : ℚ) := by exact_mod_cast le_of_lt hhw
      have h200wq : (200 : ℚ) ≤ (w : ℚ) := by exact_mod_cast le_of_lt hw200
      have hR200 : R ≤ 200 := by
        apply hbound 200 _ (by norm_num)
        rw [hEdiv]
        rw [div_le_iff₀ hwq]
        push_cast
        nlinarith [hhwq]
      have hRh : R ≤ (h : ℤ) := by
        apply hbound h _ (by exact_mod_cast hh)
        rw [hEdiv]
        rw [div_le_iff₀ hwq]
        push_cast
        nlinarith [h200wq, hhq.le]
      have htn : ((R.toNat : Nat) : ℤ) = R := Int.toNat_of_nonneg (by omega)
      have hres : thumbnailSize w h 200 200 = (200, R.toNat) := by
        simp only [thumbnailSize, if_neg hskip, if_neg hbr, hR]
      rw [hres]
      refine ⟨le_refl 200, by omega, le_of_lt hw200, by omega, fun _ => Or.inl rfl, ?_⟩
      · have hmax : max w h = w := Nat.max_eq_left (le_of_lt hhw)
        rw [hmax]
        have hEh : ((200 : Nat) : ℚ) / ((w : ℚ) / (h : ℚ)) * (w : ℚ) = 200 * (h : ℚ) := by
          field_simp
        have hkey : |(200 : ℚ) * (h : ℚ) - ((R : ℤ) : ℚ) * (w : ℚ)| < (w : ℚ) := by
          have hmul : ((((200 : Nat) : ℚ) / ((w : ℚ) / (h : ℚ))) - ((R : ℤ) : ℚ)) * (w : ℚ) =
              (200 : ℚ) * (h : ℚ) - ((R : ℤ) : ℚ) * (w : ℚ) := by
            rw [sub_mul, hEh]
          calc |(200 : ℚ) * (h : ℚ) - ((R : ℤ) : ℚ) * (w : ℚ)|
              = |((((200 : Nat) : ℚ) / ((w : ℚ) / (h : ℚ))) - ((R : ℤ) : ℚ))| * |(w : ℚ)| := by
                rw [← abs_mul, hmul]
            _ = |((R : ℤ) : ℚ) - (((200 : Nat) : ℚ) / ((w : ℚ) / (h : ℚ)))| * (w : ℚ) := by
                rw [abs_sub_comm, abs_of_pos hwq]
            _ < 1 * (w : ℚ) := mul_lt_mul_of_pos_right hdist hwq
            _ = (w : ℚ) := one_mul _
        have : |(200 : ℤ) * (h : ℤ) - (R.toNat : ℤ) * (w : ℤ)| < (w : ℤ) := by
          rw [htn]
          exact_mod_cast hkey
        calc |(200 : ℤ) * (h : ℤ) - (w : ℤ) * (R.toNat : ℤ)|
            = |(200 : ℤ) * (h : ℤ) - (R.toNat : ℤ) * (w : ℤ)| := by rw [mul_comm (w : ℤ)]
          _ < (w : ℤ) := this

/-- The orientation step either keeps the dimensions or swaps them
(90/270-degree rotations under expand semantics). -/
theorem orientStep_dims (img : PILImage) :
    ((orientStep img).1.width = img.width ∧ (orientStep img).1.height = img.height) ∨
    ((orientStep img).1.width = img.height ∧ (orientStep img).1.height = img.width) := by
  rcases hx : img.exif with _ | d
  · left; simp [orientStep, hx]
  · by_cases hd : d = []
    · left; simp [orientStep, hx, hd]
    · rcases hl : d.lookup 274 with _ | v
      · left; simp [orientStep, hx, hd, hl]
      · by_cases h3 : v = 3
        · left; simp [orientStep, hx, hd, hl, h3, rotate]
        · by_cases h6 : v = 6
          · right; simp [orientStep, hx, hd, hl, h3, h6, rotate]
          · by_cases h8 : v = 8
            · right; simp [orientStep, hx, hd, hl, h3, h6, h8, rotate]
            · left; simp [orientStep, hx, hd, hl, h3, h6, h8]

/-- The orientation step never changes the mode. -/
theorem orientStep_mode (img : PILImage) : (orientStep img).1.mode = img.mode := by
  rcases hx : img.exif with _ | d
  · simp [orientStep, hx]
  · by_cases hd : d = []
    · simp [orientStep, hx, hd]
    · rcases hl : d.lookup 274 with _ | v
      · simp [orientStep, hx, hd, hl]
      · by_cases h3 : v = 3
        · simp [orientStep, hx, hd, hl, h3, rotate]
        · by_cases h6 : v = 6
          · simp [orientStep, hx, hd, hl, h3, h6, rotate]
          · by_cases h8 : v = 8
            · simp [orientStep, hx, hd, hl, h3, h6, h8, rotate]
            · simp [orientStep, hx, hd, hl, h3, h6, h8]

/-- Flattening the transparency keeps the width. -/
theorem flattenStep_width (i : PILImage) : (flattenStep i).1.width = i.width := by
  rw [flattenStep]
  split <;> simp [paste, imageNew]

/-- Flattening the transparency keeps the height. -/
theorem flattenStep_height (i : PILImage) : (flattenStep i).1.height = i.height := by
  rw [flattenStep]
  split <;> simp [paste, imageNew]

/-- C6: the output of `resize_image` with box (200, 200) is never wider
or taller than 200, never upscales, preserves the aspect ratio up to
sub-pixel rounding, and pins one dimension to the box unless the
(orientation-corrected) source already fits strictly inside the box.
Dimensions are measured against the orientation-corrected image — the
image the resize actually receives; the final conjunct shows this
coincides with the raw source whenever no EXIF data is present. -/
theorem claim_c6_bounding_box (r : Resampler) (img : PILImage) (user path : Str)
    (hw : 0 < img.width) (hh : 0 < img.height) :
    (resize_image r img 200 200 user path).1.width ≤ 200 ∧
    (resize_image r img 200 200 user path).1.height ≤ 200 ∧
    (resize_image r img 200 200 user path).1.width ≤ (orientStep img).1.width ∧
    (resize_image r img 200 200 user path).1.height ≤ (orientStep img).1.height ∧
    (¬((orientStep img).1.width < 200 ∧ (orientStep img).1.height < 200) →
      (resize_image r img 200 200 user path).1.width = 200 ∨
      (resize_image r img 200 200 user path).1.height = 200) ∧
    |((resize_image r img 200 200 user path).1.width : ℤ) * ((orientStep img).1.height : ℤ) -
      ((orientStep img).1.width : ℤ) * ((resize_image r img 200 200 user path).1.height : ℤ)| <
      ((max (orientStep img).1.width (orientStep img).1.height : Nat) : ℤ) ∧
    (img.exif = none →
      (orientStep img).1.width = img.width ∧ (orientStep img).1.height = img.height) := by
  have hw0 : 0 < (orientStep img).1.width := by
    rcases orientStep_dims img with ⟨h1, _⟩ | ⟨h1, _⟩ <;> omega
  have hh0 : 0 < (orientStep img).1.height := by
    rcases orientStep_dims img with ⟨_, h2⟩ | ⟨_, h2⟩ <;> omega
  have houtw : (resize_image r img 200 200 user path).1.width =
      (thumbnailSize (orientStep img).1.width (orientStep img).1.height 200 200).1 := by
    rw [resize_image]
    rw [flattenStep_width]
    rfl
  have houth : (resize_image r img 200 200 user path).1.height =
      (thumbnailSize (orientStep img).1.width (orientStep img).1.height 200 200).2 := by
    rw [resize_image]
    rw [flattenStep_height]
    rfl
  obtain ⟨s1, s2, s3, s4, s5, s6⟩ :=
    thumbnail_size_spec (orientStep img).1.width (orientStep img).1.height hw0 hh0
  rw [houtw, houth]
  refine ⟨s1, s2, s3, s4, s5, s6, ?_⟩
  intro hx
  simp [orientStep, hx]

/-- Witness for C6 on a concrete 400×300 image. -/
theorem claim_c6_bounding_box_witness :
    (resize_image sampleResampler ⟨("RGB".data), 400, 300, none, fun _ _ => [0, 0, 0]⟩
      200 200 ("42".data) ("/tmp/a.jpg".data)).1.width ≤ 200 :=
  (claim_c6_bounding_box sampleResampler ⟨("RGB".data), 400, 300, none, fun _ _ => [0, 0, 0]⟩
    ("42".data) ("/tmp/a.jpg".data) (by decide) (by decide)).1

/-- C7: a source image of mode RGBA or LA is composited by
`resize_image` onto an opaque white background of the same size as the
resized image, with its alpha band as the blend mask, and the output
mode (`mode[:-1]`) contains no alpha channel. -/
theorem claim_c7_alpha_flatten (r : Resampler) (img : PILImage) (user path : Str)
    (hm : img.mode = ("RGBA".data) ∨ img.mode = ("LA".data)) :
    (resize_image r img 200 200 user path).1.mode = img.mode.dropLast ∧
    'A' ∉ (resize_image r img 200 200 user path).1.mode ∧
    (resize_image r img 200 200 user path).1.width =
      (thumbStep r 200 200 (orientStep img).1).width ∧
    (resize_image r img 200 200 user path).1.height =
      (thumbStep r 200 200 (orientStep img).1).height ∧
    (∀ x y, (resize_image r img 200 200 user path).1.pixels x y =
      List.zipWith (blendChan (alphaBand (thumbStep r 200 200 (orientStep img).1) x y))
        (ink img.mode.dropLast 255 255 255)
        ((thumbStep r 200 200 (orientStep img).1).pixels x y)) := by
  have hmid : (thumbStep r 200 200 (orientStep img).1).mode = img.mode := orientStep_mode img
  have hcond : (thumbStep r 200 200 (orientStep img).1).mode = ("RGBA".data) ∨
      (thumbStep r 200 200 (orientStep img).1).mode = ("LA".data) := by
    rw [hmid]; exact hm
  have hres : (resize_image r img 200 200 user path).1 =
      paste (imageNew ((thumbStep r 200 200 (orientStep img).1).mode.dropLast)
        (thumbStep r 200 200 (orientStep img).1).width
        (thumbStep r 200 200 (orientStep img).1).height 255 255 255)
        (thumbStep r 200 200 (orientStep img).1)
        (alphaBand (thumbStep r 200 200 (orientStep img).1)) := by
    simp only [resize_image]
    rw [flattenStep, if_pos hcond]
  rw [hres]
  refine ⟨by simp [paste, imageNew, hmid], ?_, by simp [paste, imageNew], by simp [paste, imageNew], ?_⟩
  · rcases hm with hm | hm <;>
      simp [paste, imageNew, hmid, hm]
  · intro x y
    simp [paste, imageNew, hmid]

/-- Witness for C7 on a concrete 1×1 RGBA image. -/
theorem claim_c7_alpha_flatten_witness :
    'A' ∉ (resize_image sampleResampler
      ⟨("RGBA".data), 1, 1, none, fun _ _ => [10, 20, 30, 128]⟩
      200 200 ("42".data) ("/tmp/a.png".data)).1.mode :=
  (claim_c7_alpha_flatten sampleResampler ⟨("RGBA".data), 1, 1, none, fun _ _ => [10, 20, 30, 128]⟩
    ("42".data) ("/tmp/a.png".data) (Or.inl rfl)).2.1

/-- C8: two successive uploads for the same user identifier with the
same (lowercased) filename extension derive the same object key
`{U}.{E}`; replaying both `fput_object` calls against an empty bucket
leaves exactly one object, stored under that key, holding the second
upload's content (the overwrite); and both calls return URLs that start
with the scheme and contain the user identifier. -/
theorem claim_c8_idempotent_key (cfg : Config) (r1 r2 : Resampler) (img1 img2 : PILImage)
    (f1 f2 user : Str)
    (h1 : allowed_file f1 = true) (h2 : allowed_file f2 = true)
    (hext : lowerStr (lastDotSuffix f1) = lowerStr (lastDotSuffix f2)) :
    (upload cfg true r1 img1 f1 user true true true).objectKey =
      some (user ++ ['.'] ++ lowerStr (lastDotSuffix f1)) ∧
    (upload cfg true r2 img2 f2 user true true true).objectKey =
      some (user ++ ['.'] ++ lowerStr (lastDotSuffix f1)) ∧
    (∀ q, q ≠ user ++ ['.'] ++ lowerStr (lastDotSuffix f1) →
      applyOps (applyOps emptyStore (upload cfg true r1 img1 f1 user true true true).ops)
        (upload cfg true r2 img2 f2 user true true true).ops q = none) ∧
    applyOps (applyOps emptyStore (upload cfg true r1 img1 f1 user true true true).ops)
        (upload cfg true r2 img2 f2 user true true true).ops
        (user ++ ['.'] ++ lowerStr (lastDotSuffix f1)) =
      (upload cfg true r2 img2 f2 user true true true).resizedPath ∧
    (∃ u, (upload cfg true r1 img1 f1 user true true true).result = some u ∧
      (("http://".data) <+: u) ∧ (user <:+: u)) ∧
    (∃ u, (upload cfg true r2 img2 f2 user true true true).result = some u ∧
      (("http://".data) <+: u) ∧ (user <:+: u)) := by
  refine ⟨by simp [upload, h1], by simp [upload, h2, ← hext], ?_, ?_, ?_, ?_⟩
  · intro q hq
    simp only [List.append_assoc, List.singleton_append] at hq
    simp [upload, h1, h2, ← hext, applyOps, applyOp, emptyStore, hq]
  · simp [upload, h1, h2, ← hext, applyOps, applyOp, emptyStore]
  · refine ⟨("http://".data) ++ cfg.endpoint ++ ['/'] ++ cfg.bucket ++ ['/'] ++
      (user ++ ['.'] ++ lowerStr (lastDotSuffix f1)), by simp [upload, h1], ?_, ?_⟩
    · exact ⟨cfg.endpoint ++ ['/'] ++ cfg.bucket ++ ['/'] ++
        (user ++ ['.'] ++ lowerStr (lastDotSuffix f1)), by simp [List.append_assoc]⟩
    · exact ⟨("http://".data) ++ cfg.endpoint ++ ['/'] ++ cfg.bucket ++ ['/'],
        ['.'] ++ lowerStr (lastDotSuffix f1), by simp [List.append_assoc]⟩
  · refine ⟨("http://".data) ++ cfg.endpoint ++ ['/'] ++ cfg.bucket ++ ['/'] ++
      (user ++ ['.'] ++ lowerStr (lastDotSuffix f1)), by simp [upload, h2, ← hext], ?_, ?_⟩
    · exact ⟨cfg.endpoint ++ ['/'] ++ cfg.bucket ++ ['/'] ++
        (user ++ ['.'] ++ lowerStr (lastDotSuffix f1)), by simp [List.append_assoc]⟩
    · exact ⟨("http://".data) ++ cfg.endpoint ++ ['/'] ++ cfg.bucket ++ ['/'],
        ['.'] ++ lowerStr (lastDotSuffix f1), by simp [List.append_assoc]⟩

/-- Witness for C8: uploads of `"a.jpg"` and `"b.JPG"` for user 42
share the object key. -/
theorem claim_c8_idempotent_key_witness :
    (upload sampleConfig true sampleResampler sampleImage ("a.jpg".data) ("42".data)
      true true true).objectKey =
      some (("42".data) ++ ['.'] ++ lowerStr (lastDotSuffix ("a.jpg".data))) :=
  (claim_c8_idempotent_key sampleConfig sampleResampler sampleResampler sampleImage sampleImage
    ("a.jpg".data) ("b.JPG".data) ("42".data) (by decide) (by decide) (by decide)).1

/-- C9 counterexample: in a concrete successful upload for user `"42"`
with filename `"photo.jpg"`, the raw transient copy is written to
`/tmp/photo.jpg` — a path derived from the filename that does not
contain the user identifier at all, refuting the claim that every
transient local path is derived from the owning user's identifier. -/
theorem claim_c9_counterexample :
    (upload sampleConfig true sampleResampler sampleImage ("photo.jpg".data) ("42".data)
      true true true).rawPath = some ("/tmp/photo.jpg".data) ∧
    ¬ (("42".data) <:+: ("/tmp/photo.jpg".data)) := by
  constructor
  · decide
  · decide

/-- C9 amended: only the normalized copy's path is derived from the
user identifier (`/tmp/{user}.{ext}`, which contains the identifier);
the raw copy's path is `/tmp/{filename}`, derived from the uploaded
filename instead.  Concurrent same-user uploads therefore still collide
on the normalized path (and on the raw path only when the filenames
coincide). -/
theorem claim_c9_amended (cfg : Config) (clientUp : Bool) (r : Resampler)
    (img : PILImage) (filename user : Str) (writeOk resizeOk fputOk : Bool) :
    (∀ q, (upload cfg clientUp r img filename user writeOk resizeOk fputOk).rawPath = some q →
      q = ("/tmp/".data) ++ filename) ∧
    (∀ q, (upload cfg clientUp r img filename user writeOk resizeOk fputOk).resizedPath = some q →
      q = ("/tmp/".data) ++ user ++ ['.'] ++
        lowerStr (lastDotSuffix (("/tmp/".data) ++ filename)) ∧
      (user <:+: q)) := by
  by_cases hcu : clientUp = false
  · simp [upload, hcu]
  · by_cases haf : allowed_file filename = false
    · simp [upload, hcu, haf]
    · by_cases hwk : writeOk = false
      · simp [upload, hcu, haf, hwk]
      · by_cases hrz : resizeOk = false
        · constructor
          · intro q hq
            simp [upload, hcu, haf, hwk, hrz] at hq
            exact hq.symm
          · intro q hq
            simp [upload, hcu, haf, hwk, hrz] at hq
        · constructor
          · intro q hq
            by_cases hfp : fputOk = false <;>
              simp [upload, hcu, haf, hwk, hrz, hfp] at hq <;> exact hq.symm
          · intro q hq
            have hq' : q = ("/tmp/".data) ++ user ++ ['.'] ++
                lowerStr (lastDotSuffix (("/tmp/".data) ++ filename)) := by
              by_cases hfp : fputOk = false <;>
                simp [upload, hcu, haf, hwk, hrz, hfp, resize_image, List.append_assoc] at hq <;>
                simp [hq.symm, List.append_assoc]
            refine ⟨hq', ?_⟩
            rw [hq']
            exact ⟨("/tmp/".data), ['.'] ++ lowerStr (lastDotSuffix (("/tmp/".data) ++ filename)),
              by simp [List.append_assoc]⟩

/-- Witness for C9 (amended) at a concrete successful upload. -/
theorem claim_c9_amended_witness :
    ("/tmp/a.jpg".data) = ("/tmp/".data) ++ ("a.jpg".data) :=
  (claim_c9_amended sampleConfig true sampleResampler sampleImage
    ("a.jpg".data) ("7".data) true true true).1 ("/tmp/a.jpg".data) (by decide)

/-- C10: when the storage-client constructor raises (leaving the handle
`None`), the module-level bucket check dereferences the absent handle
and module initialization fails with an uncaught `AttributeError` (the
handler catches only `S3Error`); consequently no completed
initialization ever leaves the client handle absent, so the
`minio_client is None` early-return branch of `upload` is unreachable
from that initialization path. -/
theorem claim_c10_init_failure (cfg : Config) :
    (∀ bucketPresent checkRaisesS3,
      moduleInit cfg false bucketPresent checkRaisesS3 = Except.error PyErr.attributeError) ∧
    (∀ ctorOk bucketPresent checkRaisesS3 st ops,
      moduleInit cfg ctorOk bucketPresent checkRaisesS3 = Except.ok (st, ops) → st ≠ none) := by
  constructor
  · intro bp s3
    rfl
  · intro ctorOk bp s3 st ops h hst
    subst hst
    cases ctorOk
    · simp [moduleInit] at h
    · cases s3 <;> cases bp <;> simp [moduleInit] at h

/-- Witness for C10: a successful initialization yields a present
client handle. -/
theorem claim_c10_init_failure_witness : (some () : Option Unit) ≠ none :=
  (claim_c10_init_failure sampleConfig).2 true true false (some ())
    [StorageOp.bucketExists ("bucket".data)] rfl
